import Mathlib

/-
Verification of the command-line driver `run.py` of the abcd-hcp-pipeline
repository.  The driver parses arguments, checks that the BIDS input
directory exists, creates the output directory, enumerates sessions and,
for each session, builds an output path, constructs seven pipeline stage
objects and calls `run(ncpus)` on each, optionally resuming from a named
stage.

The embedding is a shallow one: the filesystem and the external
collaborators (`read_bids_dataset`, `HCPConfiguration`, the stage classes)
are abstracted into an input record, and the observable behaviour of
`interface` is a trace of events (directory creation, configuration
construction, stage construction, stage run) together with an optional
assertion-failure message.  The `print` calls of the source are not
modelled; they carry no data the specification speaks about.
-/

/-- The seven pipeline stage classes imported by `run.py`. -/
inductive StageName where
  | preFreeSurfer
  | freeSurfer
  | postFreeSurfer
  | fmriVolume
  | fmriSurface
  | dcanSignalPreprocessing
  | executiveSummary
deriving DecidableEq, Repr

/-- Python class name of each stage, as `x.__class__.__name__` yields it. -/
def className : StageName → String
  | .preFreeSurfer => "PreFreeSurfer"
  | .freeSurfer => "FreeSurfer"
  | .postFreeSurfer => "PostFreeSurfer"
  | .fmriVolume => "FMRIVolume"
  | .fmriSurface => "FMRISurface"
  | .dcanSignalPreprocessing => "DCANSignalPreprocessing"
  | .executiveSummary => "ExecutiveSummary"

/-- The fixed stage order built at line 118 of `run.py`:
`order = [pre, free, post, vol, surf, fnlpp, execsum]`. -/
def stageOrder : List StageName :=
  [.preFreeSurfer, .freeSurfer, .postFreeSurfer, .fmriVolume, .fmriSurface,
   .dcanSignalPreprocessing, .executiveSummary]

/-- Class names of the stages in `stageOrder`, as the list `names` of
line 120 of `run.py`. -/
def stageNames : List String := stageOrder.map className

/-- A session record yielded by the external `read_bids_dataset`.  The
driver reads only the fields `subject` and `session`; all remaining
content of the record is abstracted into `extra`. -/
structure Session where
  subject : String
  session : String
  extra : List (String × String)
deriving DecidableEq, Repr

/-- The externally defined `HCPConfiguration`, as far as the driver sees
it: it is constructed from a session record and an output path. -/
structure HCPConfiguration where
  session : Session
  out_dir : String
deriving DecidableEq, Repr

/-- Python `str.startswith`, modelled on the character list of the
string. -/
def pyStartsWith (s p : String) : Bool := p.data.isPrefixOf s.data

/-- Python `str.endswith`, modelled on the reversed character list of the
string. -/
def pyEndsWith (s p : String) : Bool := p.data.reverse.isPrefixOf s.data.reverse

/-- Python `os.path.join` on two components (posixpath semantics with
separator `/`): an absolute second component replaces the path, otherwise
the separator is inserted unless the path is empty or already ends with
the separator. -/
def osPathJoin2 (path b : String) : String :=
  if pyStartsWith b "/" then b
  else if path = "" ∨ pyEndsWith path "/" then path ++ b
  else path ++ "/" ++ b

/-- The per-session output path computed at lines 103-107 of `run.py`:
`os.path.join(output_dir, 'sub-%s' % session['subject'],
'ses-%s' % session['session'])`. -/
def sessionOutDir (output_dir : String) (sess : Session) : String :=
  osPathJoin2 (osPathJoin2 output_dir ("sub-" ++ sess.subject))
    ("ses-" ++ sess.session)

/-- The configuration object constructed at line 108 of `run.py`. -/
def mkConf (output_dir : String) (sess : Session) : HCPConfiguration :=
  ⟨sess, sessionOutDir output_dir sess⟩

/-- Observable actions of the driver. -/
inductive Event where
  | makedirs (dir : String)
  | configure (conf : HCPConfiguration)
  | construct (stage : StageName) (conf : HCPConfiguration)
  | runStage (stage : StageName) (conf : HCPConfiguration) (ncpus : Int)
deriving DecidableEq, Repr

/-- Python truthiness of the `start_stage` argument: `if start_stage:`
is false for `None` and for the empty string. -/
def pythonTruthyOptStr : Option String → Bool
  | none => false
  | some s => s != ""

/-- One iteration of the session loop, lines 102-130 of `run.py`: build
the output path, construct the configuration and the seven stages, then
either run the (possibly sliced) stage list or fail the assertion on an
unknown `start_stage`.  Returns the events of the iteration and an
optional assertion-failure message. -/
def sessionBlock (output_dir : String) (ncpus : Int)
    (start_stage : Option String) (sess : Session) :
    List Event × Option String :=
  let conf := mkConf output_dir sess
  let constructs := stageOrder.map (fun st => Event.construct st conf)
  if pythonTruthyOptStr start_stage then
    let s := start_stage.getD ""
    if s ∈ stageNames then
      let sliced := stageOrder.drop (stageNames.indexOf s)
      (Event.configure conf :: constructs ++
        sliced.map (fun st => Event.runStage st conf ncpus), none)
    else
      (Event.configure conf :: constructs,
        some ("\"" ++ s ++
          "\" is unknown, check class name and case for given stage"))
  else
    (Event.configure conf :: constructs ++
      stageOrder.map (fun st => Event.runStage st conf ncpus), none)

/-- The session loop of line 101 of `run.py`: sessions are handled one
after the other; an assertion failure aborts the whole program, keeping
the events already produced. -/
def runSessions (output_dir : String) (ncpus : Int)
    (start_stage : Option String) : List Session → List Event × Option String
  | [] => ([], none)
  | sess :: rest =>
    let blk := sessionBlock output_dir ncpus start_stage sess
    match blk.2 with
    | some e => (blk.1, some e)
    | none =>
      let r := runSessions output_dir ncpus start_stage rest
      (blk.1 ++ r.1, r.2)

/-- Environment and arguments of `interface` (lines 78-130 of `run.py`).
`bidsDirIsDir` and `outputDirIsDir` abstract the two `os.path.isdir`
queries; `sessions` abstracts the records yielded by the external
`read_bids_dataset(bids_dir, subject_list, collect)` generator. -/
structure InterfaceInput where
  bids_dir : String
  bidsDirIsDir : Bool
  output_dir : String
  outputDirIsDir : Bool
  subject_list : Option (List String)
  collect : Bool
  sessions : List Session
  ncpus : Int
  start_stage : Option String
deriving DecidableEq, Repr

/-- Result of a run of `interface`: the trace of events produced before
returning or aborting, and the assertion-failure message if one fired. -/
structure RunResult where
  events : List Event
  error : Option String
deriving DecidableEq, Repr

/-- The `interface` function of `run.py`: assert that `bids_dir` is a
directory, create `output_dir` if missing, then process each session in
turn. -/
def interface (inp : InterfaceInput) : RunResult :=
  if inp.bidsDirIsDir then
    let mk0 : List Event :=
      if inp.outputDirIsDir then [] else [Event.makedirs inp.output_dir]
    let r := runSessions inp.output_dir inp.ncpus inp.start_stage inp.sessions
    ⟨mk0 ++ r.1, r.2⟩
  else
    ⟨[], some (inp.bids_dir ++ " is not a directory!")⟩

/-- The stage-run events of a trace. -/
def runEventsOf (evs : List Event) : List Event :=
  evs.filter (fun e => match e with | .runStage _ _ _ => true | _ => false)

/-- Session a trace event belongs to, if any. -/
def eventSession : Event → Option Session
  | .makedirs _ => none
  | .configure c => some c.session
  | .construct _ c => some c.session
  | .runStage _ c _ => some c.session

/-- Replace the ncpus payload of run events by 0, used to state that the
trace shape does not depend on ncpus. -/
def eraseNcpus : Event → Event
  | .runStage st c _ => .runStage st c 0
  | e => e

/-- One `add_argument` call of `generateParser` (lines 43-73 of
`run.py`). -/
structure ArgSpec where
  name : String
  positional : Bool
  dest : String
  nargsPlus : Bool
  storeTrue : Bool
  typeInt : Bool
  defaultOne : Bool
deriving DecidableEq, Repr

/-- The `generateParser` function of `run.py`, as the list of argument
declarations it installs, in source order. -/
def generateParser : List ArgSpec :=
  [⟨"bids_dir", true, "bids_dir", false, false, false, false⟩,
   ⟨"output_dir", true, "output_dir", false, false, false, false⟩,
   ⟨"--participant-label", false, "subject_list", true, false, false, false⟩,
   ⟨"--all-sessions", false, "collect", false, true, false, false⟩,
   ⟨"--ncpus", false, "ncpus", false, false, true, true⟩,
   ⟨"--stage", false, "stage", false, false, false, false⟩]

/-- A concrete session used by the witness theorems. -/
def demoSession : Session := ⟨"01", "A", [("age", "9")]⟩

/-- A second concrete session, differing from `demoSession` only in its
extra content. -/
def demoSession2 : Session := ⟨"01", "A", [("age", "10"), ("site", "X")]⟩

/-- Input used by several witness theorems: an existing BIDS directory,
an existing output directory, two sessions, no resume stage. -/
def inpW : InterfaceInput :=
  ⟨"bids", true, "out", true, none, false, [demoSession, demoSession2], 2, none⟩

/-- Input used by the C10 witness: no session is yielded, yet the given
stage name matches no stage class. -/
def inpNoSessions : InterfaceInput :=
  ⟨"bids", true, "out", true, none, false, [], 1, some "Bogus"⟩

/-- Input used by the C9 witness: the output directory does not exist. -/
def inpNoOut : InterfaceInput :=
  ⟨"bids", true, "out", false, none, false, [demoSession], 1, none⟩

/-- Input exhibiting the gap in C3: a --stage value that is the empty
string matches no stage class name, yet `if start_stage:` is false on it,
so no assertion fires and all stages run. -/
def inpEmptyStage : InterfaceInput :=
  ⟨"bids", true, "out", true, none, false, [demoSession], 1, some ""⟩

/-- Input for the C3 witness: bids_dir is not a directory. -/
def inpNoBids : InterfaceInput :=
  ⟨"nope", false, "out", true, none, false, [], 1, none⟩

/-- Input for the C3 witness: a nonempty unknown --stage value. -/
def inpBadStage : InterfaceInput :=
  ⟨"bids", true, "out", true, none, false, [demoSession], 1, some "Volume"⟩

/-- When no resume stage is given, the session loop never aborts and each
session contributes exactly the events of `sessionBlock`. -/
lemma runSessions_start_none (o : String) (n : Int) :
    ∀ l : List Session, runSessions o n none l =
      ((l.map (fun sess => (sessionBlock o n none sess).1)).flatten, none)
  | [] => rfl
  | sess :: rest => by
    have ih := runSessions_start_none o n rest
    show ((sessionBlock o n none sess).1 ++ (runSessions o n none rest).1,
          (runSessions o n none rest).2) =
      (((sess :: rest).map (fun s => (sessionBlock o n none s).1)).flatten, none)
    rw [ih]
    rfl

/-- C1: for every session yielded by the enumeration, the driver
constructs exactly seven stage objects (PreFreeSurfer, FreeSurfer,
PostFreeSurfer, FMRIVolume, FMRISurface, DCANSignalPreprocessing,
ExecutiveSummary) from that session's configuration and calls run on each
in exactly that fixed order (stated in the run of `interface` without a
resume stage, where every stage runs). -/
theorem seven_stages_fixed_order (inp : InterfaceInput)
    (h1 : inp.bidsDirIsDir = true) (h2 : inp.start_stage = none) :
    (interface inp).error = none ∧
    (interface inp).events =
      (if inp.outputDirIsDir then [] else [Event.makedirs inp.output_dir]) ++
      (inp.sessions.map (fun sess =>
        [Event.configure (mkConf inp.output_dir sess),
         Event.construct .preFreeSurfer (mkConf inp.output_dir sess),
         Event.construct .freeSurfer (mkConf inp.output_dir sess),
         Event.construct .postFreeSurfer (mkConf inp.output_dir sess),
         Event.construct .fmriVolume (mkConf inp.output_dir sess),
         Event.construct .fmriSurface (mkConf inp.output_dir sess),
         Event.construct .dcanSignalPreprocessing (mkConf inp.output_dir sess),
         Event.construct .executiveSummary (mkConf inp.output_dir sess),
         Event.runStage .preFreeSurfer (mkConf inp.output_dir sess) inp.ncpus,
         Event.runStage .freeSurfer (mkConf inp.output_dir sess) inp.ncpus,
         Event.runStage .postFreeSurfer (mkConf inp.output_dir sess) inp.ncpus,
         Event.runStage .fmriVolume (mkConf inp.output_dir sess) inp.ncpus,
         Event.runStage .fmriSurface (mkConf inp.output_dir sess) inp.ncpus,
         Event.runStage .dcanSignalPreprocessing (mkConf inp.output_dir sess) inp.ncpus,
         Event.runStage .executiveSummary (mkConf inp.output_dir sess) inp.ncpus])).flatten := by
  refine ⟨?_, ?_⟩
  · simp [interface, h1, h2, runSessions_start_none]
  · simp only [interface, h1, h2, if_true, eq_self_iff_true, runSessions_start_none]
    rfl

/-- Witness for C1 at a concrete input. -/
theorem seven_stages_fixed_order_witness :
    inpW.bidsDirIsDir = true ∧ inpW.start_stage = none ∧
    (interface inpW).error = none :=
  ⟨by decide, by decide,
   (seven_stages_fixed_order inpW (by decide) (by decide)).1⟩

/-- C10: the stage-name check sits inside the per-session loop, so with
zero sessions the interface completes without error for any start stage,
matching or not. -/
theorem stage_check_inside_loop (inp : InterfaceInput)
    (h1 : inp.bidsDirIsDir = true) (h2 : inp.sessions = []) :
    (interface inp).error = none := by
  simp [interface, h1, h2, runSessions]

/-- Witness for C10 at a concrete input whose stage name matches no
stage class. -/
theorem stage_check_inside_loop_witness :
    inpNoSessions.bidsDirIsDir = true ∧ inpNoSessions.sessions = [] ∧
    inpNoSessions.start_stage = some "Bogus" ∧ "Bogus" ∉ stageNames ∧
    (interface inpNoSessions).error = none :=
  ⟨by decide, by decide, by decide, by decide,
   stage_check_inside_loop inpNoSessions (by decide) (by decide)⟩

/-- C9: a missing output directory is created with makedirs rather than
causing a failure, and its absence never changes the error outcome (in
particular it never triggers the bids_dir assertion). -/
theorem output_dir_created (inp : InterfaceInput)
    (h1 : inp.bidsDirIsDir = true) (h2 : inp.outputDirIsDir = false) :
    Event.makedirs inp.output_dir ∈ (interface inp).events ∧
    (interface inp).error = (interface { inp with outputDirIsDir := true }).error := by
  refine ⟨?_, ?_⟩
  · simp [interface, h1, h2]
  · simp [interface, h1, h2]

/-- Witness for C9 at a concrete input. -/
theorem output_dir_created_witness :
    inpNoOut.bidsDirIsDir = true ∧ inpNoOut.outputDirIsDir = false ∧
    (Event.makedirs inpNoOut.output_dir ∈ (interface inpNoOut).events ∧
     (interface inpNoOut).error =
       (interface { inpNoOut with outputDirIsDir := true }).error) :=
  ⟨by decide, by decide, output_dir_created inpNoOut (by decide) (by decide)⟩

/-- C7: the per-session output path passed to the configuration object
depends only on the subject and session ids (and the top-level output
directory); the first conjunct identifies `sessionOutDir` as the path the
configuration is built from. -/
theorem out_dir_depends_only_on_ids (o : String) (n : Int) (st : Option String)
    (s1 s2 : Session) (h1 : s1.subject = s2.subject)
    (h2 : s1.session = s2.session) :
    ((sessionBlock o n st s1).1).head? =
      some (Event.configure ⟨s1, sessionOutDir o s1⟩) ∧
    sessionOutDir o s1 = sessionOutDir o s2 := by
  refine ⟨?_, ?_⟩
  · by_cases hT : pythonTruthyOptStr st = true
    · by_cases hM : st.getD "" ∈ stageNames
      · simp [sessionBlock, hT, hM, mkConf]
      · simp [sessionBlock, hT, hM, mkConf]
    · simp [sessionBlock, hT, mkConf]
  · simp [sessionOutDir, h1, h2]

/-- Witness for C7: two sessions agreeing on their ids but differing in
their extra content receive the same output path. -/
theorem out_dir_depends_only_on_ids_witness :
    demoSession.subject = demoSession2.subject ∧
    demoSession.session = demoSession2.session ∧
    demoSession ≠ demoSession2 ∧
    (((sessionBlock "out" 1 none demoSession).1).head? =
      some (Event.configure ⟨demoSession, sessionOutDir "out" demoSession⟩) ∧
     sessionOutDir "out" demoSession = sessionOutDir "out" demoSession2) :=
  ⟨by decide, by decide, by decide,
   out_dir_depends_only_on_ids "out" 1 none demoSession demoSession2
     (by decide) (by decide)⟩

/-- C6: the command-line parser defines exactly the positional arguments
bids_dir and output_dir and the options participant-label, all-sessions,
ncpus and stage, and nothing else. -/
theorem cli_surface :
    generateParser.map (fun a => a.name) =
      ["bids_dir", "output_dir", "--participant-label", "--all-sessions",
       "--ncpus", "--stage"] ∧
    (generateParser.filter (fun a => a.positional)).map (fun a => a.name) =
      ["bids_dir", "output_dir"] ∧
    generateParser.length = 6 := by decide

/-- C2: with no start stage all seven stages run; with a start stage equal
to one of the seven class names exactly the contiguous suffix of the fixed
order beginning at the first stage with that class name runs. -/
theorem resume_suffix (o : String) (n : Int) (sess : Session) :
    runEventsOf (sessionBlock o n none sess).1 =
      stageOrder.map (fun st => Event.runStage st (mkConf o sess) n) ∧
    ∀ s, s ∈ stageNames →
      ∃ pre suf, stageOrder = pre ++ suf ∧
        (suf.map className).head? = some s ∧
        s ∉ pre.map className ∧
        runEventsOf (sessionBlock o n (some s) sess).1 =
          suf.map (fun st => Event.runStage st (mkConf o sess) n) := by
  refine ⟨rfl, ?_⟩
  intro s hs
  simp only [stageNames, stageOrder, className, List.map, List.mem_cons,
    List.not_mem_nil, or_false] at hs
  rcases hs with rfl | rfl | rfl | rfl | rfl | rfl | rfl
  · exact ⟨[], stageOrder, rfl, rfl, by decide, rfl⟩
  · exact ⟨[.preFreeSurfer],
      [.freeSurfer, .postFreeSurfer, .fmriVolume, .fmriSurface,
       .dcanSignalPreprocessing, .executiveSummary], rfl, rfl, by decide, rfl⟩
  · exact ⟨[.preFreeSurfer, .freeSurfer],
      [.postFreeSurfer, .fmriVolume, .fmriSurface,
       .dcanSignalPreprocessing, .executiveSummary], rfl, rfl, by decide, rfl⟩
  · exact ⟨[.preFreeSurfer, .freeSurfer, .postFreeSurfer],
      [.fmriVolume, .fmriSurface, .dcanSignalPreprocessing,
       .executiveSummary], rfl, rfl, by decide, rfl⟩
  · exact ⟨[.preFreeSurfer, .freeSurfer, .postFreeSurfer, .fmriVolume],
      [.fmriSurface, .dcanSignalPreprocessing, .executiveSummary],
      rfl, rfl, by decide, rfl⟩
  · exact ⟨[.preFreeSurfer, .freeSurfer, .postFreeSurfer, .fmriVolume,
       .fmriSurface], [.dcanSignalPreprocessing, .executiveSummary],
      rfl, rfl, by decide, rfl⟩
  · exact ⟨[.preFreeSurfer, .freeSurfer, .postFreeSurfer, .fmriVolume,
       .fmriSurface, .dcanSignalPreprocessing], [.executiveSummary],
      rfl, rfl, by decide, rfl⟩

/-- Witness for C2 at the stage name FMRIVolume. -/
theorem resume_suffix_witness :
    "FMRIVolume" ∈ stageNames ∧
    (∃ pre suf, stageOrder = pre ++ suf ∧
      (suf.map className).head? = some "FMRIVolume" ∧
      "FMRIVolume" ∉ pre.map className ∧
      runEventsOf (sessionBlock "out" 2 (some "FMRIVolume") demoSession).1 =
        suf.map (fun st => Event.runStage st (mkConf "out" demoSession) 2)) :=
  ⟨by decide, (resume_suffix "out" 2 demoSession).2 "FMRIVolume" (by decide)⟩

/-- Unfolding of the session loop when the first session aborts. -/
lemma runSessions_cons_some (o : String) (n : Int) (ss : Option String)
    (sess : Session) (rest : List Session) (e : String)
    (h : (sessionBlock o n ss sess).2 = some e) :
    runSessions o n ss (sess :: rest) = ((sessionBlock o n ss sess).1, some e) := by
  simp only [runSessions, h]

/-- Unfolding of the session loop when the first session completes. -/
lemma runSessions_cons_none (o : String) (n : Int) (ss : Option String)
    (sess : Session) (rest : List Session)
    (h : (sessionBlock o n ss sess).2 = none) :
    runSessions o n ss (sess :: rest) =
      ((sessionBlock o n ss sess).1 ++ (runSessions o n ss rest).1,
       (runSessions o n ss rest).2) := by
  simp only [runSessions, h]

/-- Every run event of a session block carries the loop's ncpus value. -/
lemma sessionBlock_run_ncpus (o : String) (n : Int) (ss : Option String)
    (sess : Session) (st : StageName) (c : HCPConfiguration) (m : Int)
    (h : Event.runStage st c m ∈ (sessionBlock o n ss sess).1) : m = n := by
  by_cases hT : pythonTruthyOptStr ss = true
  · by_cases hM : ss.getD "" ∈ stageNames
    · simp only [sessionBlock, hT, hM, if_true, if_pos, List.mem_cons,
        List.mem_append, List.mem_map] at h
      aesop
    · simp only [sessionBlock, hT, hM, if_true, if_neg, List.mem_cons,
        List.mem_append, List.mem_map] at h
      aesop
  · simp only [sessionBlock, hT, List.mem_cons, List.mem_append,
      List.mem_map] at h
    aesop

/-- A session block is unchanged by the ncpus value, up to the payload of
its run events. -/
lemma sessionBlock_erase (o : String) (n n2 : Int) (ss : Option String)
    (sess : Session) :
    (sessionBlock o n2 ss sess).1.map eraseNcpus =
      (sessionBlock o n ss sess).1.map eraseNcpus ∧
    (sessionBlock o n2 ss sess).2 = (sessionBlock o n ss sess).2 := by
  have hco : ∀ k : Int, eraseNcpus ∘ (fun st => Event.runStage st (mkConf o sess) k) =
      (fun st => Event.runStage st (mkConf o sess) 0) :=
    fun k => funext (fun st => rfl)
  by_cases hT : pythonTruthyOptStr ss = true
  · by_cases hM : ss.getD "" ∈ stageNames
    · simp [sessionBlock, hT, hM, List.map_map, hco]
    · simp [sessionBlock, hT, hM]
  · simp [sessionBlock, hT, List.map_map, hco]

/-- The session loop is unchanged by the ncpus value, up to the payload
of its run events. -/
lemma runSessions_erase (o : String) (n n2 : Int) (ss : Option String) :
    ∀ l : List Session,
      (runSessions o n2 ss l).1.map eraseNcpus =
        (runSessions o n ss l).1.map eraseNcpus ∧
      (runSessions o n2 ss l).2 = (runSessions o n ss l).2
  | [] => ⟨rfl, rfl⟩
  | sess :: rest => by
    have ih := runSessions_erase o n n2 ss rest
    have hb := sessionBlock_erase o n n2 ss sess
    cases h2 : (sessionBlock o n ss sess).2 with
    | some e =>
      have h2b : (sessionBlock o n2 ss sess).2 = some e := hb.2.trans h2
      rw [runSessions_cons_some _ _ _ _ _ _ h2,
        runSessions_cons_some _ _ _ _ _ _ h2b]
      exact ⟨hb.1, rfl⟩
    | none =>
      have h2b : (sessionBlock o n2 ss sess).2 = none := hb.2.trans h2
      rw [runSessions_cons_none _ _ _ _ _ h2,
        runSessions_cons_none _ _ _ _ _ h2b]
      refine ⟨?_, ih.2⟩
      simp [List.map_append, hb.1, ih.1]

/-- Every run event of the session loop carries the loop's ncpus value. -/
lemma runSessions_run_ncpus (o : String) (n : Int) (ss : Option String)
    (st : StageName) (c : HCPConfiguration) (m : Int) :
    ∀ l : List Session, Event.runStage st c m ∈ (runSessions o n ss l).1 → m = n
  | [] => by intro h; simp [runSessions] at h
  | sess :: rest => by
    intro h
    cases h2 : (sessionBlock o n ss sess).2 with
    | some e =>
      rw [runSessions_cons_some _ _ _ _ _ _ h2] at h
      exact sessionBlock_run_ncpus o n ss sess st c m h
    | none =>
      rw [runSessions_cons_none _ _ _ _ _ h2] at h
      rcases List.mem_append.mp h with h | h
      · exact sessionBlock_run_ncpus o n ss sess st c m h
      · exact runSessions_run_ncpus o n ss st c m rest h

/-- C5: every stage run receives exactly the ncpus value given to the
interface, and the ncpus value influences nothing else: the trace with
run-event payloads erased and the error outcome are the same for every
ncpus value. -/
theorem ncpus_forwarded (inp : InterfaceInput) (n2 : Int) :
    (∀ st c m, Event.runStage st c m ∈ (interface inp).events → m = inp.ncpus) ∧
    (interface { inp with ncpus := n2 }).error = (interface inp).error ∧
    (interface { inp with ncpus := n2 }).events.map eraseNcpus =
      (interface inp).events.map eraseNcpus := by
  refine ⟨?_, ?_, ?_⟩
  · intro st c m h
    by_cases hb : inp.bidsDirIsDir = true
    · simp only [interface, hb, if_true] at h
      rcases List.mem_append.mp h with h | h
      · by_cases ho : inp.outputDirIsDir = true
        · simp [ho] at h
        · simp [ho] at h
      · exact runSessions_run_ncpus _ _ _ _ _ _ _ h
    · simp [interface, hb] at h
  · by_cases hb : inp.bidsDirIsDir = true
    · simp only [interface, hb, if_true]
      exact (runSessions_erase inp.output_dir inp.ncpus n2 inp.start_stage
        inp.sessions).2
    · simp [interface, hb]
  · by_cases hb : inp.bidsDirIsDir = true
    · simp only [interface, hb, if_true, List.map_append]
      rw [(runSessions_erase inp.output_dir inp.ncpus n2 inp.start_stage
        inp.sessions).1]
    · simp [interface, hb]

/-- Witness for C5 at a concrete input: the run event observed in the
trace carries the interface's ncpus value. -/
theorem ncpus_forwarded_witness :
    (Event.runStage .preFreeSurfer (mkConf "out" demoSession) 2 ∈
      (interface inpW).events) ∧ (2 : Int) = inpW.ncpus :=
  ⟨by decide,
   (ncpus_forwarded inpW 5).1 .preFreeSurfer (mkConf "out" demoSession) 2
     (by decide)⟩

/-- Every event of a session block belongs to that block's session. -/
lemma sessionBlock_session (o : String) (n : Int) (ss : Option String)
    (sess : Session) :
    ∀ e ∈ (sessionBlock o n ss sess).1, eventSession e = some sess := by
  intro e he
  by_cases hT : pythonTruthyOptStr ss = true
  · by_cases hM : ss.getD "" ∈ stageNames
    · simp [sessionBlock, hT, hM] at he
      rcases he with rfl | ⟨a, _, rfl⟩ | hd
      · rfl
      · rfl
      · rcases List.mem_map.mp (List.mem_of_mem_drop hd) with ⟨a, _, rfl⟩
        rfl
    · simp [sessionBlock, hT, hM] at he
      rcases he with rfl | ⟨a, _, rfl⟩ <;> rfl
  · simp [sessionBlock, hT] at he
    rcases he with rfl | ⟨a, _, rfl⟩ | ⟨a, _, rfl⟩ <;> rfl

/-- When the loop completes without an assertion failure, its trace is
the concatenation, in enumeration order, of the per-session blocks. -/
lemma runSessions_none_flatten (o : String) (n : Int) (ss : Option String) :
    ∀ l : List Session, (runSessions o n ss l).2 = none →
      (runSessions o n ss l).1 =
        (l.map (fun s => (sessionBlock o n ss s).1)).flatten
  | [] => by intro _; rfl
  | sess :: rest => by
    intro h
    cases h2 : (sessionBlock o n ss sess).2 with
    | some e =>
      rw [runSessions_cons_some _ _ _ _ _ _ h2] at h
      simp at h
    | none =>
      rw [runSessions_cons_none _ _ _ _ _ h2] at h ⊢
      rw [runSessions_none_flatten o n ss rest h]
      rfl

/-- C4: sessions are processed strictly serially: the trace decomposes
into the per-session blocks in enumeration order, and every event of a
block belongs to that block's session, so all events of an earlier
session precede all events of a later one and stage runs, being atomic
trace events of a single sequential loop, never overlap. -/
theorem sessions_serial (inp : InterfaceInput)
    (h : (interface inp).error = none) :
    (interface inp).events =
      (if inp.outputDirIsDir then [] else [Event.makedirs inp.output_dir]) ++
      (inp.sessions.map (fun sess =>
        (sessionBlock inp.output_dir inp.ncpus inp.start_stage sess).1)).flatten ∧
    ∀ sess : Session,
      ∀ e ∈ (sessionBlock inp.output_dir inp.ncpus inp.start_stage sess).1,
        eventSession e = some sess := by
  have hb : inp.bidsDirIsDir = true := by
    by_contra hb
    simp [interface, hb] at h
  refine ⟨?_, fun sess e he => sessionBlock_session _ _ _ _ e he⟩
  have h2 : (runSessions inp.output_dir inp.ncpus inp.start_stage
      inp.sessions).2 = none := by
    simp only [interface, hb, if_true] at h
    exact h
  simp only [interface, hb, if_true]
  rw [runSessions_none_flatten _ _ _ _ h2]

/-- Witness for C4 at a concrete input. -/
theorem sessions_serial_witness :
    (interface inpW).error = none ∧
    (interface inpW).events =
      (if inpW.outputDirIsDir then [] else [Event.makedirs inpW.output_dir]) ++
      (inpW.sessions.map (fun sess =>
        (sessionBlock inpW.output_dir inpW.ncpus inpW.start_stage sess).1)).flatten :=
  ⟨by decide, (sessions_serial inpW (by decide)).1⟩

/-- C3 counterexample: with the empty string as --stage value, which
matches none of the seven class names, the interface completes without
any assertion failure and stage runs are invoked. -/
theorem stage_assert_counterexample :
    "" ∉ stageNames ∧
    inpEmptyStage.start_stage = some "" ∧
    (interface inpEmptyStage).error = none ∧
    Event.runStage .preFreeSurfer (mkConf "out" demoSession) 1 ∈
      (interface inpEmptyStage).events := by decide

/-- C3 amended: an assertion failure fires when bids_dir is not a
directory, and then no session is processed; and when at least one
session is yielded and the --stage value is a nonempty string matching
none of the seven class names, an assertion failure fires and no stage's
run is invoked. -/
theorem stage_assert_amended (inp : InterfaceInput) (s : String) :
    (inp.bidsDirIsDir = false →
      (interface inp).error = some (inp.bids_dir ++ " is not a directory!") ∧
      (interface inp).events = []) ∧
    (inp.bidsDirIsDir = true → inp.sessions ≠ [] → inp.start_stage = some s →
      s ≠ "" → s ∉ stageNames →
      (interface inp).error =
        some ("\"" ++ s ++
          "\" is unknown, check class name and case for given stage") ∧
      runEventsOf (interface inp).events = []) := by
  refine ⟨?_, ?_⟩
  · intro hb
    simp [interface, hb]
  · intro hb hne hss hs0 hsm
    have hT : pythonTruthyOptStr (some s) = true := by
      simp [pythonTruthyOptStr, hs0]
    have hblk2 : ∀ sess : Session,
        (sessionBlock inp.output_dir inp.ncpus (some s) sess).2 =
        some ("\"" ++ s ++
          "\" is unknown, check class name and case for given stage") := by
      intro sess
      simp [sessionBlock, hT, hsm]
    have hblk1 : ∀ sess : Session,
        (sessionBlock inp.output_dir inp.ncpus (some s) sess).1 =
        Event.configure (mkConf inp.output_dir sess) ::
          stageOrder.map (fun st =>
            Event.construct st (mkConf inp.output_dir sess)) := by
      intro sess
      simp [sessionBlock, hT, hsm]
    cases hl : inp.sessions with
    | nil => exact absurd hl hne
    | cons sess rest =>
      simp only [interface, hb, if_true, hss, hl]
      rw [runSessions_cons_some _ _ _ _ _ _ (hblk2 sess)]
      refine ⟨rfl, ?_⟩
      rw [hblk1 sess]
      by_cases ho : inp.outputDirIsDir = true
      · simp [ho, runEventsOf, stageOrder]
      · simp [ho, runEventsOf, stageOrder]

/-- Witness for C3 (amended) at concrete inputs for both conjuncts. -/
theorem stage_assert_amended_witness :
    ((interface inpNoBids).error = some "nope is not a directory!" ∧
     (interface inpNoBids).events = []) ∧
    ((interface inpBadStage).error =
       some "\"Volume\" is unknown, check class name and case for given stage" ∧
     runEventsOf (interface inpBadStage).events = []) :=
  ⟨(stage_assert_amended inpNoBids "x").1 (by decide),
   (stage_assert_amended inpBadStage "Volume").2 (by decide) (by decide)
     (by decide) (by decide) (by decide)⟩

/-- A component beginning with the literal sub- is never absolute. -/
lemma pyStartsWith_sub (S : String) :
    pyStartsWith ("sub-" ++ S) "/" = false := by
  have hd : ("sub-" ++ S).data = 's' :: 'u' :: 'b' :: '-' :: S.data := by
    rw [String.data_append]
    rfl
  unfold pyStartsWith
  rw [hd]
  simp [List.isPrefixOf]

/-- A component beginning with the literal ses- is never absolute. -/
lemma pyStartsWith_ses (E : String) :
    pyStartsWith ("ses-" ++ E) "/" = false := by
  have hd : ("ses-" ++ E).data = 's' :: 'e' :: 's' :: '-' :: E.data := by
    rw [String.data_append]
    rfl
  unfold pyStartsWith
  rw [hd]
  simp [List.isPrefixOf]

/-- The first joined path is never the empty string. -/
lemma append_sub_ne_empty (o S : String) : o ++ "/" ++ ("sub-" ++ S) ≠ "" := by
  intro h
  have hd := congrArg String.data h
  rw [String.data_append, String.data_append] at hd
  simp at hd

/-- The first joined path never ends in the separator when the subject
id does not. -/
lemma pyEndsWith_append_sub (o S : String) (h3 : pyEndsWith S "/" = false) :
    pyEndsWith (o ++ "/" ++ ("sub-" ++ S)) "/" = false := by
  have hd : (o ++ "/" ++ ("sub-" ++ S)).data.reverse =
      S.data.reverse ++ ('-' :: 'b' :: 'u' :: 's' :: '/' :: o.data.reverse) := by
    rw [String.data_append, String.data_append]
    have h1 : ("sub-" ++ S).data = 's' :: 'u' :: 'b' :: '-' :: S.data := by
      rw [String.data_append]
      rfl
    simp [h1, List.reverse_append]
  unfold pyEndsWith
  rw [hd]
  cases hS : S.data.reverse with
  | nil => simp [List.isPrefixOf]
  | cons c l =>
    unfold pyEndsWith at h3
    rw [hS] at h3
    simp [List.isPrefixOf] at h3
    simp [List.isPrefixOf, h3]

/-- C8: for a session with subject id S and session id E the output
directory handed to the configuration is output_dir joined with sub-S
joined with ses-E; under the stated join side conditions this is plain
concatenation with the separator. -/
theorem out_dir_shape (o S E : String) (extra : List (String × String))
    (h1 : o ≠ "") (h2 : pyEndsWith o "/" = false)
    (h3 : pyEndsWith S "/" = false) :
    sessionOutDir o ⟨S, E, extra⟩ = o ++ "/" ++ ("sub-" ++ S) ++ "/" ++ ("ses-" ++ E) := by
  have hJ1 : osPathJoin2 o ("sub-" ++ S) = o ++ "/" ++ ("sub-" ++ S) := by
    simp [osPathJoin2, pyStartsWith_sub, h1, h2]
  have hJ2 : osPathJoin2 (o ++ "/" ++ ("sub-" ++ S)) ("ses-" ++ E) =
      o ++ "/" ++ ("sub-" ++ S) ++ "/" ++ ("ses-" ++ E) := by
    simp [osPathJoin2, pyStartsWith_ses, append_sub_ne_empty,
      pyEndsWith_append_sub o S h3]
  unfold sessionOutDir
  rw [hJ1, hJ2]

/-- Witness for C8 at concrete strings. -/
theorem out_dir_shape_witness :
    ("/out" : String) ≠ "" ∧
    pyEndsWith "/out" "/" = false ∧ pyEndsWith "01" "/" = false ∧
    sessionOutDir "/out" ⟨"01", "A", [("age", "9")]⟩ =
      "/out" ++ "/" ++ ("sub-" ++ "01") ++ "/" ++ ("ses-" ++ "A") :=
  ⟨by decide, by decide, by decide,
   out_dir_shape "/out" "01" "A" [("age", "9")] (by decide) (by decide)
     (by decide)⟩
